import Mathlib

/-
Verification development for the clive library (clive.go): a declarative
CLI generator that turns annotated struct types into urfave/cli commands
and extracts typed flag values back out of a parse context.

The Go source is embedded shallowly:
  * struct fields become `Field` records (name, type string, cli tag);
  * `parseMeta`, `flagFromType`, `commandFromObject`, `build` and `Flags`
    are translated directly, with Go panics and errors both modelled as
    `Except.error` carrying the error message;
  * Go standard-library helpers (`strconv.ParseInt`, `strconv.ParseUint`,
    `strconv.ParseBool`, `strconv.ParseFloat`, `time.ParseDuration`,
    `strings.FieldsFunc`, `strings.SplitN`, `strings.Trim`,
    `strings.Split`) and the iancoleman/strcase case converters are
    modelled after their documented behaviour, byte-for-byte on the ASCII
    inputs the library is used with (notes on each definition);
  * the urfave/cli collaborator (flags, commands, apps, contexts) is
    modelled from the spec as the external context provider.

Machine integers are modelled as Nat/Int with the explicit clamping that
Go's strconv performs; float64 values are kept as exact rationals (IEEE
rounding is irrelevant to every property proved here, which only pass
parsed defaults through unchanged or compare them against zero).
-/

namespace Clive

/-- Quote character (ASCII 39): the tag-escaping delimiter used by clive. -/
def qChar : Char := Char.ofNat 39

/-- ASCII decimal digit test (byte range 48-57), as used by strconv. -/
def isDigitCh (c : Char) : Bool := decide (48 ≤ c.toNat) && decide (c.toNat ≤ 57)

/-- ASCII upper-case letter test, as used by strcase. -/
def isUpperCh (c : Char) : Bool := decide (65 ≤ c.toNat) && decide (c.toNat ≤ 90)

/-- ASCII lower-case letter test, as used by strcase. -/
def isLowerCh (c : Char) : Bool := decide (97 ≤ c.toNat) && decide (c.toNat ≤ 122)

/-- Lower-case an ASCII letter (strcase does `v += 'a' - 'A'`). -/
def lowerCh (c : Char) : Char := Char.ofNat (c.toNat + 32)

/-- Upper-case an ASCII letter (strcase does `v += 'A' - 'a'`). -/
def upperCh (c : Char) : Char := Char.ofNat (c.toNat - 32)

/-- Whitespace per `strings.TrimSpace`, restricted to the ASCII range
(flag names and overrides are ASCII identifiers). -/
def isSpaceCh (c : Char) : Bool :=
  c == ' ' || c == '\t' || c == '\n' || c == '\r' || c.toNat == 11 || c.toNat == 12

/-- `strings.TrimSpace` on a character list (ASCII whitespace). -/
def trimSpaceAscii (cs : List Char) : List Char :=
  ((cs.dropWhile isSpaceCh).reverse.dropWhile isSpaceCh).reverse

/-- Core loop of iancoleman/strcase `ToScreamingDelimited` (with empty
`ignore` set, as in `ToKebab` and `ToScreamingSnake`): walks the bytes,
case-adjusts each, inserts the delimiter at case/number boundaries and
replaces space, underscore, hyphen and dot with the delimiter. `prev` is
the unadjusted previous byte, mirroring the Go code's `s[i-1]`. -/
def tsdAux (delim : Char) (screaming : Bool) : Option Char → List Char → List Char
  | _, [] => []
  | prev, v :: rest =>
    let vCap := isUpperCh v
    let vLow := isLowerCh v
    let v2 := if vLow && screaming then upperCh v
              else if vCap && !screaming then lowerCh v else v
    let step : Option (List Char) :=
      match rest with
      | [] => none
      | next :: _ =>
        let vNum := isDigitCh v2
        let nCap := isUpperCh next
        let nLow := isLowerCh next
        let nNum := isDigitCh next
        if (vCap && (nLow || nNum)) || (vLow && (nCap || nNum)) || (vNum && (nCap || nLow)) then
          some ((if vCap && nLow && (match prev with | some p => isUpperCh p | none => false)
                 then [delim] else [])
                ++ [v2]
                ++ (if vLow || vNum || nNum then [delim] else []))
        else none
    match step with
    | some out => out ++ tsdAux delim screaming (some v) rest
    | none =>
      (if v2 == ' ' || v2 == '_' || v2 == '-' || v2 == '.' then [delim] else [v2])
      ++ tsdAux delim screaming (some v) rest

/-- iancoleman/strcase `ToScreamingDelimited s delim "" screaming`. -/
def toScreamingDelimited (s : String) (delim : Char) (screaming : Bool) : String :=
  String.mk (tsdAux delim screaming none (trimSpaceAscii s.toList))

/-- iancoleman/strcase `ToKebab`. -/
def toKebab (s : String) : String := toScreamingDelimited s '-' false

/-- iancoleman/strcase `ToScreamingSnake`. -/
def toScreamingSnake (s : String) : String := toScreamingDelimited s '_' true

/-- Error classification of Go's strconv: `bad` is a syntax error
(value reported as 0), `range` an out-of-range error (value reported
clamped at the extreme of the target type). -/
inductive ParseErr where
  | bad
  | range
deriving DecidableEq

/-- Numeric value of an ASCII digit. -/
def digitVal (c : Char) : Nat := c.toNat - 48

/-- Accumulate a digit string into a Nat (exact, no overflow). -/
def natOfDigits (cs : List Char) : Nat := cs.foldl (fun a c => a * 10 + digitVal c) 0

/-- Read a non-empty all-digit string; `none` on empty input or any
non-digit byte (strconv base-10 syntax, no underscores since the base
is fixed at 10). -/
def digitsToNat : List Char → Option Nat
  | [] => none
  | cs => if cs.all isDigitCh then some (natOfDigits cs) else none

/-- `strconv.ParseBool`: the exact list of accepted literals. `none`
models the syntax error (Go also reports value `false` then). -/
def goParseBool (s : String) : Option Bool :=
  if s ∈ (["1", "t", "T", "TRUE", "true", "True"] : List String) then some true
  else if s ∈ (["0", "f", "F", "FALSE", "false", "False"] : List String) then some false
  else none

/-- `strconv.ParseUint(s, 10, 64)` as (value, error): no sign allowed,
digits only; values above 2^64-1 clamp to 2^64-1 with a range error. -/
def goParseUint64 (s : String) : Nat × Option ParseErr :=
  match digitsToNat s.toList with
  | none => (0, some ParseErr.bad)
  | some n => if n > 2 ^ 64 - 1 then (2 ^ 64 - 1, some ParseErr.range) else (n, none)

/-- `strconv.ParseInt(s, 10, 64)` as (value, error): optional sign, then
digits; out-of-range values clamp to MinInt64/MaxInt64 with a range
error (Go first clamps the magnitude at MaxUint64 inside ParseUint,
then applies the signed cutoff, which the `min` below reproduces). -/
def goParseInt64Core (neg : Bool) (cs : List Char) : Int × Option ParseErr :=
  match digitsToNat cs with
  | none => (0, some ParseErr.bad)
  | some n =>
    let un := min n (2 ^ 64 - 1)
    if neg then
      if un > 2 ^ 63 then (-(2 ^ 63 : Int), some ParseErr.range) else (-(un : Int), none)
    else
      if un ≥ 2 ^ 63 then ((2 ^ 63 - 1 : Int), some ParseErr.range) else ((un : Int), none)

/-- Sign handling of `strconv.ParseInt`: an optional leading plus or
minus, then the digit parse with the signed cutoff. -/
def goParseInt64 (s : String) : Int × Option ParseErr :=
  match s.toList with
  | c :: cs =>
    if c == '+' then goParseInt64Core false cs
    else if c == '-' then goParseInt64Core true cs
    else goParseInt64Core false (c :: cs)
  | [] => goParseInt64Core false []

/-- Longest digit run at the head of a character list, with the rest. -/
def takeDigitsL : List Char → List Char × List Char
  | [] => ([], [])
  | c :: rest =>
    if isDigitCh c then
      let dr := takeDigitsL rest
      (c :: dr.1, dr.2)
    else ([], c :: rest)

/-- `strconv.ParseFloat(s, 64)` modelled over exact rationals: optional
sign, decimal mantissa with an optional point (at least one digit), and
an optional signed decimal exponent. `none` is a syntax error (Go also
reports value 0 then). Not modelled: hexadecimal floats, `inf`/`nan`
literals, digit-group underscores, IEEE rounding and overflow to
infinity — no property proved here depends on them, since parsed float
defaults are only passed through unchanged or compared against zero. -/
def goParseFloatQ (s : String) : Option Rat :=
  match s.toList with
  | [] => none
  | cs =>
    let signRest : Bool × List Char :=
      match cs with
      | c :: t => if c == '-' then (true, t) else if c == '+' then (false, t) else (false, cs)
      | [] => (false, cs)
    let ipR := takeDigitsL signRest.2
    let fpR : List Char × List Char :=
      match ipR.2 with
      | c :: t => if c == '.' then takeDigitsL t else ([], ipR.2)
      | [] => ([], ipR.2)
    if ipR.1 = [] ∧ fpR.1 = [] then none
    else
      let mant : Rat := (natOfDigits ipR.1 : Rat) + (natOfDigits fpR.1 : Rat) / (10 : Rat) ^ fpR.1.length
      match fpR.2 with
      | [] => some (if signRest.1 then -mant else mant)
      | e :: t =>
        if e == 'e' || e == 'E' then
          let esignRest : Bool × List Char :=
            match t with
            | c :: t2 => if c == '-' then (true, t2) else if c == '+' then (false, t2) else (false, t)
            | [] => (false, t)
          match esignRest.2 with
          | [] => none
          | _ :: _ =>
            if esignRest.2.all isDigitCh then
              let ex := natOfDigits esignRest.2
              let scaled := if esignRest.1 then mant / (10 : Rat) ^ ex else mant * (10 : Rat) ^ ex
              some (if signRest.1 then -scaled else scaled)
            else none
        else none

/-- Longest head run of bytes that are neither digits nor a point: the
unit token scanner of `time.ParseDuration`. -/
def takeUnitL : List Char → List Char × List Char
  | [] => ([], [])
  | c :: rest =>
    if !isDigitCh c && c != '.' then
      let ur := takeUnitL rest
      (c :: ur.1, ur.2)
    else ([], c :: rest)

/-- The unit table of `time.ParseDuration`, in nanoseconds. -/
def durUnit (u : String) : Option Nat :=
  if u = "ns" then some 1
  else if u = "us" then some 1000
  else if u = "µs" then some 1000
  else if u = "μs" then some 1000
  else if u = "ms" then some 1000000
  else if u = "s" then some 1000000000
  else if u = "m" then some 60000000000
  else if u = "h" then some 3600000000000
  else none

/-- One or more `[digits][.digits]unit` groups of `time.ParseDuration`,
accumulated in nanoseconds. Fuel-driven recursion (each step consumes at
least one byte). The fractional part is computed with exact integer
arithmetic `f * unit / 10^len` where Go uses a float64 intermediate —
identical on the short literals durations are written with. -/
def goParseDurationAux : Nat → List Char → Nat → Option Nat
  | 0, _, _ => none
  | _ + 1, [], acc => some acc
  | fuel + 1, cs, acc =>
    let dsR := takeDigitsL cs
    let fsR : List Char × List Char :=
      match dsR.2 with
      | c :: t => if c == '.' then takeDigitsL t else ([], dsR.2)
      | [] => ([], dsR.2)
    if dsR.1 = [] ∧ fsR.1 = [] then none
    else
      let usR := takeUnitL fsR.2
      match durUnit (String.mk usR.1) with
      | none => none
      | some unit =>
        let add := natOfDigits dsR.1 * unit + natOfDigits fsR.1 * unit / 10 ^ fsR.1.length
        goParseDurationAux fuel usR.2 (acc + add)

/-- `time.ParseDuration` as nanoseconds: optional sign, the special
literal `0`, then unit groups; `none` is an error (empty string, missing
digits or unit, unknown unit, overflow past 2^63-1 — Go reports value 0
then, which `Option.getD 0` reproduces at the call site). -/
def goParseDuration (s : String) : Option Int :=
  let signRest : Bool × List Char :=
    match s.toList with
    | c :: t => if c == '-' then (true, t) else if c == '+' then (false, t) else (false, c :: t)
    | [] => (false, [])
  if signRest.2 = ['0'] then some 0
  else if signRest.2 = [] then none
  else
    match goParseDurationAux (signRest.2.length + 1) signRest.2 0 with
    | none => none
    | some n =>
      if n > 2 ^ 63 - 1 then none
      else some (if signRest.1 then -(n : Int) else (n : Int))

/-- The structured tag metadata of clive (`commandMetadata` in the
source): name override, usage text, hidden marker, raw default literal. -/
structure CommandMetadata where
  name : String
  usage : String
  hidden : Bool
  default : String
deriving DecidableEq

/-- The zero `commandMetadata` that `parseMeta` starts from. -/
def emptyMeta : CommandMetadata := { name := "", usage := "", hidden := false, default := "" }

/-- The stateful `strings.FieldsFunc` split of `parseMeta`: a single
left-to-right pass in which a quote byte toggles the `quotes` state and
a comma splits only while unquoted; separator bytes are dropped and
empty fields are not produced (FieldsFunc semantics). -/
def fieldsAux : List Char → Bool → List Char → List String → List String
  | [], _, cur, acc => (if cur.isEmpty then acc else String.mk cur.reverse :: acc).reverse
  | c :: rest, quotes, cur, acc =>
    let quotes2 := if c == qChar then !quotes else quotes
    if c == ',' && !quotes2 then
      fieldsAux rest quotes2 [] (if cur.isEmpty then acc else String.mk cur.reverse :: acc)
    else
      fieldsAux rest quotes2 (c :: cur) acc

/-- The comma-outside-quotes splitter of `parseMeta` (clive.go:221-231). -/
def fieldsFuncCli (s : String) : List String := fieldsAux s.toList false [] []

/-- `strings.Trim(s, "'")`: strip every leading and trailing quote. -/
def trimQuotes (s : String) : String :=
  String.mk (((s.toList.dropWhile (fun c => c == qChar)).reverse.dropWhile
    (fun c => c == qChar)).reverse)

/-- `strings.SplitN(s, sep, 2)` for a one-byte separator: split at the
first occurrence only; a one-element list when the separator is absent. -/
def splitN2Aux (sep : Char) : List Char → List Char → List String
  | [], acc => [String.mk acc.reverse]
  | c :: rest, acc =>
    if c == sep then [String.mk acc.reverse, String.mk rest]
    else splitN2Aux sep rest (c :: acc)

/-- `strings.SplitN(s, ":", 2)` as used on each tag section. -/
def splitN2 (sep : Char) (s : String) : List String := splitN2Aux sep s.toList []

/-- One iteration of `parseMeta`'s section loop (clive.go:232-256):
dispatch on the key, with `usage` quote-trimmed, `hidden` parsed as a
boolean (the only default-literal parse whose failure is an error), and
unknown keys or colon-less sections rejected. Error strings keep the
source's wording with quoting punctuation elided. -/
def applySection (md : CommandMetadata) (sec : String) : Except String CommandMetadata :=
  match splitN2 ':' sec with
  | [k, v] =>
    match k with
    | "name" => Except.ok { md with name := v }
    | "usage" => Except.ok { md with usage := trimQuotes v }
    | "hidden" =>
      match goParseBool v with
      | some b => Except.ok { md with hidden := b }
      | none => Except.error "failed to parse hidden as a bool"
    | "default" => Except.ok { md with default := v }
    | _ => Except.error ("unknown command tag: " ++ k ++ ":" ++ v)
  | _ => Except.error ("malformed tag: " ++ sec)

/-- Fold of `applySection` over the sections, stopping at the first
error exactly as the Go loop returns on `err != nil`. -/
def parseMetaAux : CommandMetadata → List String → Except String CommandMetadata
  | md, [] => Except.ok md
  | md, sec :: rest =>
    match applySection md sec with
    | Except.error e => Except.error e
    | Except.ok md2 => parseMetaAux md2 rest

/-- `parseMeta` (clive.go:217-258). -/
def parseMeta (s : String) : Except String CommandMetadata :=
  parseMetaAux emptyMeta (fieldsFuncCli s)

/-- `strings.HasPrefix` (byte prefix test). -/
def goHasPre (s pre : String) : Bool := pre.toList.isPrefixOf s.toList

/-- `strings.TrimPrefix`: drop the prefix when present, else unchanged. -/
def goTrimPre (s pre : String) : String :=
  if goHasPre s pre then String.mk (s.toList.drop pre.toList.length) else s

/-- `strings.Split(s, ",")` for the one-byte comma separator: keeps
empty pieces, and yields one (possibly empty) piece for input without
commas. -/
def splitCommaAux : List Char → List Char → List String
  | [], cur => [String.mk cur.reverse]
  | c :: rest, cur =>
    if c == ',' then String.mk cur.reverse :: splitCommaAux rest []
    else splitCommaAux rest (c :: cur)

/-- `strings.Split(s, ",")`. -/
def goSplitComma (s : String) : List String := splitCommaAux s.toList []

/-- `strings.ToLower` restricted to ASCII (struct type names are ASCII
identifiers). -/
def goToLower (s : String) : String :=
  String.mk (s.toList.map (fun c => if isUpperCh c then lowerCh c else c))

/-- A struct field as reflection presents it to clive: declared name,
the textual form of its declared type (`fieldType.Type.String()`, the
string both dispatch switches compare against), and its `cli` tag. -/
structure Field where
  name : String
  typeStr : String
  tag : String
deriving DecidableEq

/-- The urfave/cli flag kinds clive synthesizes, one constructor per
flag struct used in `flagFromType`: `boolTF` is `cli.BoolTFlag` (the
inverted, absent-means-true boolean); the slice flags keep Go's pointer
defaults as `Option` (`none` is the nil, unset default); duration
defaults are nanosecond counts; float defaults are exact rationals. -/
inductive Flag where
  | intF (name env : String) (value : Int) (hidden : Bool) (usage : String)
  | int64F (name env : String) (value : Int) (hidden : Bool) (usage : String)
  | uintF (name env : String) (value : Nat) (hidden : Bool) (usage : String)
  | uint64F (name env : String) (value : Nat) (hidden : Bool) (usage : String)
  | float64F (name env : String) (value : Rat) (hidden : Bool) (usage : String)
  | boolF (name env : String) (hidden : Bool) (usage : String)
  | boolTF (name env : String) (hidden : Bool) (usage : String)
  | stringF (name env : String) (value : String) (hidden : Bool) (usage : String)
  | durationF (name env : String) (value : Int) (hidden : Bool) (usage : String)
  | intSliceF (name env : String) (value : Option (List Int)) (hidden : Bool) (usage : String)
  | int64SliceF (name env : String) (value : Option (List Int)) (hidden : Bool) (usage : String)
  | stringSliceF (name env : String) (value : Option (List String)) (hidden : Bool) (usage : String)
deriving DecidableEq

/-- urfave/cli `Flag.GetName()`: the flag's name field. -/
def Flag.getName : Flag → String
  | .intF n _ _ _ _ => n
  | .int64F n _ _ _ _ => n
  | .uintF n _ _ _ _ => n
  | .uint64F n _ _ _ _ => n
  | .float64F n _ _ _ _ => n
  | .boolF n _ _ _ => n
  | .boolTF n _ _ _ => n
  | .stringF n _ _ _ _ => n
  | .durationF n _ _ _ _ => n
  | .intSliceF n _ _ _ _ => n
  | .int64SliceF n _ _ _ _ => n
  | .stringSliceF n _ _ _ _ => n

/-- The flag's environment-variable binding (the `EnvVar` field). -/
def Flag.getEnvVar : Flag → String
  | .intF _ e _ _ _ => e
  | .int64F _ e _ _ _ => e
  | .uintF _ e _ _ _ => e
  | .uint64F _ e _ _ _ => e
  | .float64F _ e _ _ _ => e
  | .boolF _ e _ _ => e
  | .boolTF _ e _ _ => e
  | .stringF _ e _ _ _ => e
  | .durationF _ e _ _ _ => e
  | .intSliceF _ e _ _ _ => e
  | .int64SliceF _ e _ _ _ => e
  | .stringSliceF _ e _ _ _ => e

/-- The flag-name derivation of `flagFromType` (clive.go:267-271): the
kebab-cased name override when present, else the kebab-cased field name
with the `Flag` eligibility marker stripped (`strings.TrimPrefix`). -/
def flagName (fieldName override : String) : String :=
  if override ≠ "" then toKebab override
  else toKebab (goTrimPre fieldName "Flag")

/-- The environment-variable derivation of `flagFromType`
(clive.go:272): screaming-snake-case of the flag name. -/
def envName (n : String) : String := toScreamingSnake n

/-- The closed set of declared type strings `flagFromType` dispatches
on (every `case` of the switch at clive.go:276-437). -/
def supportedTypes : List String :=
  ["int", "int64", "uint", "uint64", "float32", "float64", "bool", "string",
   "time.Duration", "[]int", "[]int64", "[]string"]

/-- `flagFromType` (clive.go:261-444): derive names, quote-trim the
default literal, then dispatch on the declared type string, coercing the
default best-effort (parse errors discarded, exactly as the source
discards them with `_`). `float32` parses with 32-bit precision in Go;
over exact rationals the two float cases coincide. The `[]int64` case
uses `strconv.Atoi` then casts to int64, which on a 64-bit platform is
the same value `goParseInt64` yields. -/
def flagFromType (f : Field) (md : CommandMetadata) : Except String Flag :=
  let name := flagName f.name md.name
  let env := envName name
  let dflt := trimQuotes md.default
  match f.typeStr with
  | "int" => Except.ok (.intF name env (goParseInt64 dflt).1 md.hidden md.usage)
  | "int64" => Except.ok (.int64F name env (goParseInt64 dflt).1 md.hidden md.usage)
  | "uint" => Except.ok (.uintF name env (goParseUint64 dflt).1 md.hidden md.usage)
  | "uint64" => Except.ok (.uint64F name env (goParseUint64 dflt).1 md.hidden md.usage)
  | "float32" => Except.ok (.float64F name env ((goParseFloatQ dflt).getD 0) md.hidden md.usage)
  | "float64" => Except.ok (.float64F name env ((goParseFloatQ dflt).getD 0) md.hidden md.usage)
  | "bool" =>
    if !((goParseBool dflt).getD false) then Except.ok (.boolF name env md.hidden md.usage)
    else Except.ok (.boolTF name env md.hidden md.usage)
  | "string" => Except.ok (.stringF name env dflt md.hidden md.usage)
  | "time.Duration" =>
    Except.ok (.durationF name env ((goParseDuration dflt).getD 0) md.hidden md.usage)
  | "[]int" =>
    Except.ok (.intSliceF name env
      (if dflt ≠ "" then
        some ((goSplitComma dflt).map (fun e => (goParseInt64 e).1))
       else none) md.hidden md.usage)
  | "[]int64" =>
    Except.ok (.int64SliceF name env
      (if dflt ≠ "" then
        some ((goSplitComma dflt).map (fun e => (goParseInt64 e).1))
       else none) md.hidden md.usage)
  | "[]string" =>
    Except.ok (.stringSliceF name env
      (if dflt ≠ "" then some (goSplitComma dflt) else none)
      md.hidden md.usage)
  | t => Except.error ("unsupported flag generator type: " ++ t)

/-- The slice of `cli.Command` that clive reads and writes: the fields
`commandFromObject`/`getCommand`/`build` touch (Name, Usage, Flags,
Action). The action callback is opaque to clive and modelled by an
optional identifier. -/
structure Command where
  name : String
  usage : String
  flags : List Flag
  action : Option String
deriving DecidableEq

/-- An annotated record instance as reflection presents it to
`commandFromObject`: the struct type's name, its first field (expected
to be an embedded `cli.Command`, whose kind/cast checks are folded into
`cmdFieldIsCommand`), the embedded command's value, and the remaining
fields. Field values beyond the embedded command are never read by the
source, so only the field descriptors are kept. -/
structure Obj where
  typeName : String
  cmdFieldName : String
  cmdFieldTag : String
  cmdFieldIsCommand : Bool
  cmdValue : Command
  flagFields : List Field
deriving DecidableEq

/-- `getCommand` (clive.go:193-215): check the first field is the
embedded `cli.Command` marker, read its tag for the usage text, and
start from the embedded value with an empty flag list. The source's
struct-kind check and interface cast are the single `cmdFieldIsCommand`
test here. -/
def getCommand (o : Obj) : Except String Command :=
  if o.cmdFieldName ≠ "Command" then
    Except.error "first field must be an embedded cli.Command"
  else if !o.cmdFieldIsCommand then
    Except.error "expected Command field to be a struct"
  else
    match parseMeta o.cmdFieldTag with
    | Except.error e =>
      Except.error ("failed to read cmdmeta tag on the embedded cli.Command struct: " ++ e)
    | Except.ok md => Except.ok { o.cmdValue with usage := md.usage, flags := [] }

/-- The field loop of `commandFromObject` (clive.go:172-188): parse each
tag (errors propagate unwrapped), turn each `Flag`-prefixed field into a
flag (errors wrapped with the source's fixed wrap message), append in
declaration order. -/
def addFlags (cmd : Command) : List Field → Except String Command
  | [] => Except.ok cmd
  | f :: rest =>
    match parseMeta f.tag with
    | Except.error e => Except.error e
    | Except.ok md =>
      if goHasPre f.name "Flag" then
        match flagFromType f md with
        | Except.error e =>
          Except.error ("failed to generate flag from struct field: " ++ e)
        | Except.ok fl => addFlags { cmd with flags := cmd.flags ++ [fl] } rest
      else addFlags cmd rest

/-- `commandFromObject` (clive.go:148-191): reject anonymous types, read
the embedded command, name it after the lowercased type name, then
process the remaining fields. -/
def commandFromObject (o : Obj) : Except String Command :=
  if o.typeName = "" then
    Except.error "need a named struct type to determine command name"
  else
    match getCommand o with
    | Except.error e => Except.error e
    | Except.ok cmd => addFlags { cmd with name := goToLower o.typeName } o.flagFields

/-- The slice of `cli.App` that `build` writes: usage, action, root
flags and subcommands. -/
structure App where
  usage : String
  action : Option String
  flags : List Flag
  commands : List Command
deriving DecidableEq

/-- `cli.NewApp()` defaults for the fields modelled here: stock usage
string, no action, no flags, no subcommands. -/
def newApp : App :=
  { usage := "A new cli application", action := none, flags := [], commands := [] }

/-- The command-collection loop of `build` (clive.go:118-126):
fail-fast map of `commandFromObject` over the inputs. -/
def buildCommands : List Obj → Except String (List Command)
  | [] => Except.ok []
  | o :: rest =>
    match commandFromObject o with
    | Except.error e => Except.error e
    | Except.ok cmd =>
      match buildCommands rest with
      | Except.error e => Except.error e
      | Except.ok cmds => Except.ok (cmd :: cmds)

/-- `build` (clive.go:115-139): one command flattens into the root app
(its usage/action/flags become the app's, no subcommand layer); any
other count attaches the commands as subcommands and clears root flags. -/
def build (objs : List Obj) : Except String App :=
  match buildCommands objs with
  | Except.error e => Except.error e
  | Except.ok commands =>
    match commands with
    | [cmd] =>
      Except.ok { newApp with usage := cmd.usage, action := cmd.action, flags := cmd.flags }
    | _ => Except.ok { newApp with commands := commands, flags := [] }

/-- Modelled from the spec: the parse-context of the external urfave/cli
collaborator, queryable per kind by flag name (`c.Int`, `c.Int64`,
`c.Uint`, `c.Uint64`, `c.Float64`, `c.Bool`, `c.String`, `c.Duration`
— answering in nanoseconds, the numeric interval representation —
`c.IntSlice`, `c.Int64Slice`, `c.StringSlice`). -/
structure Context where
  int : String → Int
  int64 : String → Int
  uint : String → Nat
  uint64 : String → Nat
  float64 : String → Rat
  bool : String → Bool
  string : String → String
  duration : String → Int
  intSlice : String → List Int
  int64Slice : String → List Int
  stringSlice : String → List String

/-- Modelled from the spec: a context pre-loaded with one flag's
default, i.e. what urfave/cli answers when the flag was registered and
not set on the command line: the flag's default value for its own name
and kind (an inverted `BoolTFlag` reads back `true`, a plain `BoolFlag`
`false`, a nil slice default reads back as the empty slice), and zero
values everywhere else. -/
def defaultContext (flag : Flag) : Context where
  int := fun n => if n = flag.getName then
    (match flag with | .intF _ _ v _ _ => v | _ => 0) else 0
  int64 := fun n => if n = flag.getName then
    (match flag with | .int64F _ _ v _ _ => v | _ => 0) else 0
  uint := fun n => if n = flag.getName then
    (match flag with | .uintF _ _ v _ _ => v | _ => 0) else 0
  uint64 := fun n => if n = flag.getName then
    (match flag with | .uint64F _ _ v _ _ => v | _ => 0) else 0
  float64 := fun n => if n = flag.getName then
    (match flag with | .float64F _ _ v _ _ => v | _ => 0) else 0
  bool := fun n => if n = flag.getName then
    (match flag with | .boolTF _ _ _ _ => true | _ => false) else false
  string := fun n => if n = flag.getName then
    (match flag with | .stringF _ _ v _ _ => v | _ => "") else ""
  duration := fun n => if n = flag.getName then
    (match flag with | .durationF _ _ v _ _ => v | _ => 0) else 0
  intSlice := fun n => if n = flag.getName then
    (match flag with | .intSliceF _ _ v _ _ => v.getD [] | _ => []) else []
  int64Slice := fun n => if n = flag.getName then
    (match flag with | .int64SliceF _ _ v _ _ => v.getD [] | _ => []) else []
  stringSlice := fun n => if n = flag.getName then
    (match flag with | .stringSliceF _ _ v _ _ => v.getD [] | _ => []) else []

/-- The all-zero context: every query answers the kind's zero value,
used as a concrete sample context. -/
def zeroCtx : Context where
  int := fun _ => 0
  int64 := fun _ => 0
  uint := fun _ => 0
  uint64 := fun _ => 0
  float64 := fun _ => 0
  bool := fun _ => false
  string := fun _ => ""
  duration := fun _ => 0
  intSlice := fun _ => []
  int64Slice := fun _ => []
  stringSlice := fun _ => []

/-- A field's value inside a record instance, one constructor per Go
representation clive assigns (`vDuration` holds nanoseconds, the
representation `SetInt(...Nanoseconds())` stores); `vZero t` is the
untouched zero value of a type `t` the extractor never assigns. -/
inductive FieldValue where
  | vInt (i : Int)
  | vUint (n : Nat)
  | vFloat (q : Rat)
  | vBool (b : Bool)
  | vString (s : String)
  | vDuration (ns : Int)
  | vIntList (l : List Int)
  | vStringList (l : List String)
  | vZero (typeStr : String)
deriving DecidableEq

/-- The zero value `reflect.New` gives a field of the named type before
`Flags` assigns anything. -/
def zeroValue : String → FieldValue
  | "int" => .vInt 0
  | "int64" => .vInt 0
  | "uint" => .vUint 0
  | "uint64" => .vUint 0
  | "float32" => .vFloat 0
  | "float64" => .vFloat 0
  | "bool" => .vBool false
  | "string" => .vString ""
  | "time.Duration" => .vDuration 0
  | "[]int" => .vIntList []
  | "[]int64" => .vIntList []
  | "[]string" => .vStringList []
  | t => .vZero t

/-- The per-type switch of `Flags` (clive.go:59-90): read the context's
value of the matching kind under the synthesized flag's name. The
duration arm is `c.Duration(...).Nanoseconds()` — the context's numeric
nanosecond interval stored into the field's (nanosecond-counted)
duration representation. `genericSliceOf` rebuilds a slice with the
same elements and is the identity on the modelled lists. -/
def extractValue (typeStr : String) (flag : Flag) (c : Context) : Except String FieldValue :=
  match typeStr with
  | "int" => Except.ok (.vInt (c.int flag.getName))
  | "int64" => Except.ok (.vInt (c.int64 flag.getName))
  | "uint" => Except.ok (.vUint (c.uint flag.getName))
  | "uint64" => Except.ok (.vUint (c.uint64 flag.getName))
  | "float32" => Except.ok (.vFloat (c.float64 flag.getName))
  | "float64" => Except.ok (.vFloat (c.float64 flag.getName))
  | "bool" => Except.ok (.vBool (c.bool flag.getName))
  | "string" => Except.ok (.vString (c.string flag.getName))
  | "time.Duration" => Except.ok (.vDuration (c.duration flag.getName))
  | "[]int" => Except.ok (.vIntList (c.intSlice flag.getName))
  | "[]int64" => Except.ok (.vIntList (c.int64Slice flag.getName))
  | "[]string" => Except.ok (.vStringList (c.stringSlice flag.getName))
  | _ => Except.error "unsupported type"

/-- The field loop of `Flags` (clive.go:46-92) over the template's field
descriptors: parse every field's tag (a parse failure panics), then for
each `Flag`-prefixed field resynthesize its flag (a failure panics with
the source's wrap message) and read the context's value of the field's
declared kind; every other field keeps its zero value in the fresh
instance. -/
def flagsFields : List Field → Context → Except String (List FieldValue)
  | [], _ => Except.ok []
  | f :: rest, c =>
    match parseMeta f.tag with
    | Except.error e => Except.error e
    | Except.ok md =>
      match (if goHasPre f.name "Flag" then
               match flagFromType f md with
               | Except.error e =>
                 Except.error ("failed to generate flag from struct field: " ++ e)
               | Except.ok flag => extractValue f.typeStr flag c
             else Except.ok (zeroValue f.typeStr)) with
      | Except.error e => Except.error e
      | Except.ok v =>
        match flagsFields rest c with
        | Except.error e => Except.error e
        | Except.ok vs => Except.ok (v :: vs)

/-- `Flags` (clive.go:32-95): the value extractor, taking the template
instance (field descriptors paired with the template's field values) and
the parse context, and building the fresh instance. The source reads
only `objValue.Type()`, so only the descriptors reach the field loop —
the template's values are discarded here exactly as there. -/
def Flags (obj : List (Field × FieldValue)) (c : Context) : Except String (List FieldValue) :=
  flagsFields (obj.map Prod.fst) c

/-- The coerced default a synthesized flag carries, in the field's own
representation: what the round trip through a default-loaded context
must reproduce (boolean polarity encoded by the flag kind; a nil slice
default observed as the empty slice, which is how the context reader
reports it). -/
def coercedDefault : Flag → FieldValue
  | .intF _ _ v _ _ => .vInt v
  | .int64F _ _ v _ _ => .vInt v
  | .uintF _ _ v _ _ => .vUint v
  | .uint64F _ _ v _ _ => .vUint v
  | .float64F _ _ v _ _ => .vFloat v
  | .boolF _ _ _ _ => .vBool false
  | .boolTF _ _ _ _ => .vBool true
  | .stringF _ _ v _ _ => .vString v
  | .durationF _ _ v _ _ => .vDuration v
  | .intSliceF _ _ v _ _ => .vIntList (v.getD [])
  | .int64SliceF _ _ v _ _ => .vIntList (v.getD [])
  | .stringSliceF _ _ v _ _ => .vStringList (v.getD [])

/-- Substring occurrence test on character lists (used to state that an
error message does not mention a field name). -/
def subOccurs (pat : List Char) : List Char → Bool
  | [] => decide (pat = [])
  | c :: rest => pat.isPrefixOf (c :: rest) || subOccurs pat rest

/-- Wrap a string in single quotes (tag escaping). -/
def quoteWrap (s : String) : String := String.mk [qChar] ++ s ++ String.mk [qChar]

/-- The tag string of the quoting example: usage:'a,b,c',default:1. -/
def quotingTag : String := "usage:" ++ quoteWrap "a,b,c" ++ ",default:1"

/-- C4: parseMeta splits a tag only on commas occurring outside
single-quote spans; in particular the sections of usage:'a,b,c',default:1
are usage:'a,b,c' and default:1, and parsing yields usage a,b,c (quotes
stripped) and default 1 — the embedded commas do not split the segment. -/
theorem c4_parse_meta_quoting :
    fieldsFuncCli quotingTag = ["usage:" ++ quoteWrap "a,b,c", "default:1"] ∧
    parseMeta quotingTag =
      Except.ok { name := "", usage := "a,b,c", hidden := false, default := "1" } := by
  constructor <;> rfl

/-- C2: flag-name and environment-variable derivation is deterministic —
the synthesizer (`commandFromObject` at build time) and the extractor
(`Flags` at invocation time) both obtain the flag through the same pure
`flagFromType`, so two synthesized flags for the same field and metadata
carry byte-identical names, and both equal the pure `flagName`/`envName`
derivation from the field name and metadata name override. -/
theorem c2_name_determinism (f : Field) (md : CommandMetadata) (fl1 fl2 : Flag)
    (h1 : flagFromType f md = Except.ok fl1) (h2 : flagFromType f md = Except.ok fl2) :
    fl1.getName = fl2.getName ∧ fl1.getEnvVar = fl2.getEnvVar ∧
    fl1.getName = flagName f.name md.name ∧
    fl1.getEnvVar = envName (flagName f.name md.name) := by
  have h12 := h1.symm.trans h2
  injection h12 with he
  subst he
  refine ⟨rfl, rfl, ?_, ?_⟩ <;>
  · simp only [flagFromType] at h1
    split at h1 <;>
      first
        | (injection h1 with hv; subst hv; rfl)
        | (split at h1 <;> (injection h1 with hv; subst hv; rfl))
        | exact Except.noConfusion h1

/-- Witness for C2 at the concrete field FlagPort of type int with
default 8080. -/
theorem c2_name_determinism_witness :
    (Flag.intF "port" "PORT" 8080 false "").getName =
      (Flag.intF "port" "PORT" 8080 false "").getName ∧
    (Flag.intF "port" "PORT" 8080 false "").getEnvVar =
      (Flag.intF "port" "PORT" 8080 false "").getEnvVar ∧
    (Flag.intF "port" "PORT" 8080 false "").getName = flagName "FlagPort" "" ∧
    (Flag.intF "port" "PORT" 8080 false "").getEnvVar = envName (flagName "FlagPort" "") :=
  c2_name_determinism ⟨"FlagPort", "int", "default:8080"⟩ ⟨"", "", false, "8080"⟩
    (Flag.intF "port" "PORT" 8080 false "") (Flag.intF "port" "PORT" 8080 false "") (by rfl)
    (by rfl)

/-- C8: a declared type outside the closed supported set makes
`flagFromType` fail with the error naming the offending type (for any
metadata), and makes the value extractor fail on that eligible field
with the same unsupported-type error wrapped — mirroring the same
closed set — rather than silently skipping the field. -/
theorem c8_unsupported_type (f : Field) (md md2 : CommandMetadata) (c : Context)
    (hns : f.typeStr ∉ supportedTypes) :
    flagFromType f md = Except.error ("unsupported flag generator type: " ++ f.typeStr) ∧
    (parseMeta f.tag = Except.ok md2 → goHasPre f.name "Flag" = true →
      flagsFields [f] c = Except.error
        ("failed to generate flag from struct field: "
          ++ ("unsupported flag generator type: " ++ f.typeStr))) := by
  have hgen : ∀ md' : CommandMetadata,
      flagFromType f md' = Except.error ("unsupported flag generator type: " ++ f.typeStr) := by
    intro md'
    simp only [flagFromType]
    split <;> simp_all [supportedTypes]
  refine ⟨hgen md, fun hm he => ?_⟩
  simp [flagsFields, hm, he, hgen md2]

/-- Witness for C8 at a field of the unsupported type chan int. -/
theorem c8_unsupported_type_witness :
    flagFromType ⟨"FlagX", "chan int", ""⟩ ⟨"", "", false, ""⟩ =
      Except.error ("unsupported flag generator type: " ++ "chan int") ∧
    (parseMeta "" = Except.ok emptyMeta → goHasPre "FlagX" "Flag" = true →
      flagsFields [⟨"FlagX", "chan int", ""⟩] zeroCtx = Except.error
        ("failed to generate flag from struct field: "
          ++ ("unsupported flag generator type: " ++ "chan int"))) :=
  c8_unsupported_type ⟨"FlagX", "chan int", ""⟩ ⟨"", "", false, ""⟩ emptyMeta zeroCtx
    (by decide)

/-- C5: boolean fields synthesize one of two distinct flag kinds by
default polarity — a coerced default of true yields the inverted
`BoolTFlag`, whose absence the context reads back as true; a default of
false or an absent/unparseable default yields the plain `BoolFlag`,
whose absence reads back as false. -/
theorem c5_bool_polarity (f : Field) (md : CommandMetadata) (flag : Flag)
    (ht : f.typeStr = "bool") (hf : flagFromType f md = Except.ok flag) :
    ((goParseBool (trimQuotes md.default)).getD false = true →
      flag = Flag.boolTF (flagName f.name md.name) (envName (flagName f.name md.name))
        md.hidden md.usage ∧
      (defaultContext flag).bool flag.getName = true) ∧
    ((goParseBool (trimQuotes md.default)).getD false = false →
      flag = Flag.boolF (flagName f.name md.name) (envName (flagName f.name md.name))
        md.hidden md.usage ∧
      (defaultContext flag).bool flag.getName = false) := by
  simp only [flagFromType, ht] at hf
  split at hf <;> injection hf with hv <;> subst hv <;>
    simp_all [defaultContext, Flag.getName]

/-- Witness for C5 at the bool fields FlagVerbose with default true and
FlagQuiet with no default. -/
theorem c5_bool_polarity_witness :
    ((goParseBool (trimQuotes "true")).getD false = true →
      Flag.boolTF "verbose" "VERBOSE" false "" =
        Flag.boolTF (flagName "FlagVerbose" "") (envName (flagName "FlagVerbose" ""))
          false "" ∧
      (defaultContext (Flag.boolTF "verbose" "VERBOSE" false "")).bool
        (Flag.boolTF "verbose" "VERBOSE" false "").getName = true) ∧
    ((goParseBool (trimQuotes "true")).getD false = false →
      Flag.boolTF "verbose" "VERBOSE" false "" =
        Flag.boolF (flagName "FlagVerbose" "") (envName (flagName "FlagVerbose" ""))
          false "" ∧
      (defaultContext (Flag.boolTF "verbose" "VERBOSE" false "")).bool
        (Flag.boolTF "verbose" "VERBOSE" false "").getName = false) :=
  c5_bool_polarity ⟨"FlagVerbose", "bool", "default:true"⟩ ⟨"", "", false, "true"⟩
    (Flag.boolTF "verbose" "VERBOSE" false "") rfl (by rfl)

/-- C6: for the three list-typed fields, a non-empty (quote-trimmed)
default literal is split on commas into elements coerced per the
element type, while an empty literal produces the non-present `none`
default — not the empty list — so unset and explicitly-empty stay
distinguishable. -/
theorem c6_list_defaults (f : Field) (md : CommandMetadata) (flag : Flag)
    (hf : flagFromType f md = Except.ok flag) :
    (f.typeStr = "[]int" →
      flag = Flag.intSliceF (flagName f.name md.name) (envName (flagName f.name md.name))
        (if trimQuotes md.default ≠ "" then
          some ((goSplitComma (trimQuotes md.default)).map (fun e => (goParseInt64 e).1))
         else none) md.hidden md.usage) ∧
    (f.typeStr = "[]int64" →
      flag = Flag.int64SliceF (flagName f.name md.name) (envName (flagName f.name md.name))
        (if trimQuotes md.default ≠ "" then
          some ((goSplitComma (trimQuotes md.default)).map (fun e => (goParseInt64 e).1))
         else none) md.hidden md.usage) ∧
    (f.typeStr = "[]string" →
      flag = Flag.stringSliceF (flagName f.name md.name) (envName (flagName f.name md.name))
        (if trimQuotes md.default ≠ "" then some (goSplitComma (trimQuotes md.default))
         else none) md.hidden md.usage) ∧
    (none : Option (List Int)) ≠ some [] := by
  refine ⟨fun ht => ?_, fun ht => ?_, fun ht => ?_, by simp⟩ <;>
    simp only [flagFromType, ht] at hf <;> injection hf with hv <;> exact hv.symm

/-- Witness for C6 at the field FlagIds of type list of int with
quoted default 1,2,3 and at the empty default. -/
theorem c6_list_defaults_witness :
    ("[]int" = "[]int" →
      Flag.intSliceF "ids" "IDS" (some [1, 2, 3]) false "" =
        Flag.intSliceF (flagName "FlagIds" "") (envName (flagName "FlagIds" ""))
          (if trimQuotes (quoteWrap "1,2,3") ≠ "" then
            some ((goSplitComma (trimQuotes (quoteWrap "1,2,3"))).map
              (fun e => (goParseInt64 e).1))
           else none) false "") ∧
    ("[]int" = "[]int64" →
      Flag.intSliceF "ids" "IDS" (some [1, 2, 3]) false "" =
        Flag.int64SliceF (flagName "FlagIds" "") (envName (flagName "FlagIds" ""))
          (if trimQuotes (quoteWrap "1,2,3") ≠ "" then
            some ((goSplitComma (trimQuotes (quoteWrap "1,2,3"))).map
              (fun e => (goParseInt64 e).1))
           else none) false "") ∧
    ("[]int" = "[]string" →
      Flag.intSliceF "ids" "IDS" (some [1, 2, 3]) false "" =
        Flag.stringSliceF (flagName "FlagIds" "") (envName (flagName "FlagIds" ""))
          (if trimQuotes (quoteWrap "1,2,3") ≠ "" then
            some (goSplitComma (trimQuotes (quoteWrap "1,2,3")))
           else none) false "") ∧
    (none : Option (List Int)) ≠ some [] :=
  c6_list_defaults ⟨"FlagIds", "[]int", ""⟩ ⟨"", "", false, quoteWrap "1,2,3"⟩
    (Flag.intSliceF "ids" "IDS" (some [1, 2, 3]) false "") (by rfl)

/-- C1: the round trip — for every supported field type and any default
literal, synthesizing the field's flag and then running the value
extractor against a context pre-loaded with that flag's default yields
exactly the coerced default in the fresh instance's field (the duration
case passing through the context's nanosecond interval). -/
theorem c1_round_trip (f : Field) (md : CommandMetadata) (flag : Flag)
    (hm : parseMeta f.tag = Except.ok md)
    (he : goHasPre f.name "Flag" = true)
    (hf : flagFromType f md = Except.ok flag) :
    flagsFields [f] (defaultContext flag) = Except.ok [coercedDefault flag] := by
  have hex : extractValue f.typeStr flag (defaultContext flag) =
      Except.ok (coercedDefault flag) := by
    simp only [flagFromType] at hf
    split at hf
    all_goals try exact Except.noConfusion hf
    all_goals try split at hf
    all_goals injection hf with hv
    all_goals subst hv
    all_goals simp_all [extractValue, defaultContext, coercedDefault, Flag.getName]
  simp only [flagsFields, hm, he, if_true, hf, hex]

/-- The flag loop only ever appends flags: the command name survives
`addFlags` unchanged. -/
theorem addFlags_keeps_name (l : List Field) : ∀ (cmd cmd' : Command),
    addFlags cmd l = Except.ok cmd' → cmd'.name = cmd.name := by
  induction l with
  | nil =>
    intro cmd cmd' h
    simp only [addFlags] at h
    injection h with h
    rw [← h]
  | cons f rest ih =>
    intro cmd cmd' h
    simp only [addFlags] at h
    cases hpm : parseMeta f.tag with
    | error e => simp only [hpm] at h; exact Except.noConfusion h
    | ok md =>
      simp only [hpm] at h
      by_cases hel : goHasPre f.name "Flag" = true
      · simp only [hel, if_true] at h
        cases hft : flagFromType f md with
        | error e => simp only [hft] at h; exact Except.noConfusion h
        | ok fl =>
          simp only [hft] at h
          exact ih { cmd with flags := cmd.flags ++ [fl] } cmd' h
      · simp only [if_neg hel] at h
        exact ih cmd cmd' h

/-- A successfully synthesized command is named after the lowercased
type name. -/
theorem commandFromObject_lower_name (o : Obj) (cmd : Command)
    (h : commandFromObject o = Except.ok cmd) : cmd.name = goToLower o.typeName := by
  simp only [commandFromObject] at h
  by_cases ht : o.typeName = ""
  · simp only [if_pos ht] at h
    exact Except.noConfusion h
  · simp only [if_neg ht] at h
    cases hg : getCommand o with
    | error e => simp only [hg] at h; exact Except.noConfusion h
    | ok cmd0 =>
      simp only [hg] at h
      exact addFlags_keeps_name _ _ _ h

/-- The command-collection loop succeeds exactly positionally: as many
commands as inputs, the i-th command synthesized from the i-th input. -/
theorem buildCommands_spec (objs : List Obj) : ∀ (cmds : List Command),
    buildCommands objs = Except.ok cmds →
    cmds.length = objs.length ∧
    ∀ (i : Nat) (h1 : i < objs.length) (h2 : i < cmds.length),
      commandFromObject (objs.get ⟨i, h1⟩) = Except.ok (cmds.get ⟨i, h2⟩) := by
  induction objs with
  | nil =>
    intro cmds h
    simp only [buildCommands] at h
    injection h with h
    subst h
    exact ⟨rfl, fun i h1 => absurd h1 (Nat.not_lt_zero i)⟩
  | cons o rest ih =>
    intro cmds h
    simp only [buildCommands] at h
    cases hco : commandFromObject o with
    | error e => simp only [hco] at h; exact Except.noConfusion h
    | ok cmd =>
      simp only [hco] at h
      cases hbc : buildCommands rest with
      | error e => simp only [hbc] at h; exact Except.noConfusion h
      | ok cmds2 =>
        simp only [hbc] at h
        injection h with h
        subst h
        obtain ⟨hlen, hidx⟩ := ih cmds2 hbc
        refine ⟨by simp [hlen], ?_⟩
        intro i h1 h2
        cases i with
        | zero => exact hco
        | succ j =>
          exact hidx j (by simpa using h1) (by simpa using h2)

/-- C3: building from exactly one record flattens — the application's
top-level usage, action and flags are that command's, with no
subcommand layer; building from two or more leaves the root flags empty
and attaches every synthesized command as a named subcommand (named
after its record's lowercased type name), in order. -/
theorem c3_flatten :
    (∀ (o : Obj) (app : App) (cmd : Command),
      build [o] = Except.ok app → commandFromObject o = Except.ok cmd →
      app.usage = cmd.usage ∧ app.action = cmd.action ∧ app.flags = cmd.flags ∧
      app.commands = []) ∧
    (∀ (objs : List Obj) (app : App),
      2 ≤ objs.length → build objs = Except.ok app →
      app.flags = [] ∧ app.commands.length = objs.length ∧
      ∀ (i : Nat) (h1 : i < objs.length) (h2 : i < app.commands.length),
        commandFromObject (objs.get ⟨i, h1⟩) = Except.ok (app.commands.get ⟨i, h2⟩) ∧
        (app.commands.get ⟨i, h2⟩).name = goToLower (objs.get ⟨i, h1⟩).typeName) := by
  constructor
  · intro o app cmd hb hc
    simp only [build, buildCommands, hc] at hb
    injection hb with hb
    subst hb
    exact ⟨rfl, rfl, rfl, rfl⟩
  · intro objs app h2 hb
    simp only [build] at hb
    cases hbc : buildCommands objs with
    | error e => simp only [hbc] at hb; exact Except.noConfusion hb
    | ok cmds =>
      simp only [hbc] at hb
      obtain ⟨hlen, hidx⟩ := buildCommands_spec objs cmds hbc
      match cmds, hlen, hidx, hb with
      | [], hlen, _, _ => simp at hlen; omega
      | [a], hlen, _, _ => simp at hlen; omega
      | a :: b :: t, hlen, hidx, hb =>
        injection hb with hb
        subst hb
        refine ⟨rfl, hlen, ?_⟩
        intro i h1 h2i
        exact ⟨hidx i h1 h2i,
          commandFromObject_lower_name _ _ (hidx i h1 h2i)⟩

/-- A sample single-command record: type Serve with an embedded command
carrying an action, and one int flag field. -/
def serveObj : Obj :=
  ⟨"Serve", "Command", "usage:run the server", true, ⟨"", "", [], some "serveAction"⟩,
   [⟨"FlagPort", "int", "default:8080"⟩]⟩

/-- The command `commandFromObject` synthesizes from `serveObj`. -/
def serveCmd : Command :=
  ⟨"serve", "run the server", [Flag.intF "port" "PORT" 8080 false ""], some "serveAction"⟩

/-- A second sample record with no flag fields. -/
def migrateObj : Obj :=
  ⟨"Migrate", "Command", "", true, ⟨"", "", [], some "migrateAction"⟩, []⟩

/-- The command synthesized from `migrateObj`. -/
def migrateCmd : Command := ⟨"migrate", "", [], some "migrateAction"⟩

/-- The flattened single-command application built from `serveObj`. -/
def serveApp : App :=
  ⟨"run the server", some "serveAction", [Flag.intF "port" "PORT" 8080 false ""], []⟩

/-- The two-command application built from `serveObj` and `migrateObj`. -/
def multiApp : App := ⟨"A new cli application", none, [], [serveCmd, migrateCmd]⟩

/-- Witness for C3 on the concrete one- and two-command builds. -/
theorem c3_flatten_witness :
    (serveApp.usage = serveCmd.usage ∧ serveApp.action = serveCmd.action ∧
      serveApp.flags = serveCmd.flags ∧ serveApp.commands = []) ∧
    (multiApp.flags = [] ∧
      multiApp.commands.length = [serveObj, migrateObj].length ∧
      (commandFromObject ([serveObj, migrateObj].get ⟨0, by decide⟩) =
          Except.ok (multiApp.commands.get ⟨0, by decide⟩) ∧
        (multiApp.commands.get ⟨0, by decide⟩).name =
          goToLower ([serveObj, migrateObj].get ⟨0, by decide⟩).typeName)) :=
  ⟨c3_flatten.1 serveObj serveApp serveCmd (by rfl) (by rfl),
   (c3_flatten.2 [serveObj, migrateObj] multiApp (by decide) (by rfl)).1,
   (c3_flatten.2 [serveObj, migrateObj] multiApp (by decide) (by rfl)).2.1,
   (c3_flatten.2 [serveObj, migrateObj] multiApp (by decide) (by rfl)).2.2 0
     (by decide) (by decide)⟩

/-- Witness for C1 at the int field FlagPort with default 8080. -/
theorem c1_round_trip_witness :
    flagsFields [⟨"FlagPort", "int", "default:8080"⟩]
      (defaultContext (Flag.intF "port" "PORT" 8080 false "")) =
    Except.ok [coercedDefault (Flag.intF "port" "PORT" 8080 false "")] :=
  c1_round_trip ⟨"FlagPort", "int", "default:8080"⟩ ⟨"", "", false, "8080"⟩
    (Flag.intF "port" "PORT" 8080 false "") (by rfl) (by rfl) (by rfl)

/-- The extractor's field loop, positionally: one output value per
field, and every field without the Flag eligibility marker keeps the
zero value of its declared type. -/
theorem flagsFields_spec (fs : List Field) : ∀ (c : Context) (vs : List FieldValue),
    flagsFields fs c = Except.ok vs →
    vs.length = fs.length ∧
    ∀ (i : Nat) (h1 : i < fs.length) (h2 : i < vs.length),
      goHasPre (fs.get ⟨i, h1⟩).name "Flag" = false →
      vs.get ⟨i, h2⟩ = zeroValue (fs.get ⟨i, h1⟩).typeStr := by
  induction fs with
  | nil =>
    intro c vs h
    simp only [flagsFields] at h
    injection h with h
    subst h
    exact ⟨rfl, fun i h1 => absurd h1 (Nat.not_lt_zero i)⟩
  | cons f rest ih =>
    intro c vs h
    simp only [flagsFields] at h
    cases hpm : parseMeta f.tag with
    | error e => simp only [hpm] at h; exact Except.noConfusion h
    | ok md =>
      simp only [hpm] at h
      by_cases hel : goHasPre f.name "Flag" = true
      · simp only [hel, if_true] at h
        cases hft : flagFromType f md with
        | error e => simp only [hft] at h; exact Except.noConfusion h
        | ok flag =>
          simp only [hft] at h
          cases hev : extractValue f.typeStr flag c with
          | error e => simp only [hev] at h; exact Except.noConfusion h
          | ok v =>
            simp only [hev] at h
            cases hrec : flagsFields rest c with
            | error e => simp only [hrec] at h; exact Except.noConfusion h
            | ok vs2 =>
              simp only [hrec] at h
              injection h with h
              subst h
              obtain ⟨hlen, hidx⟩ := ih c vs2 hrec
              refine ⟨by simp [hlen], ?_⟩
              intro i h1 h2 hne
              cases i with
              | zero => simp only [List.get] at hne; rw [hel] at hne; exact Bool.noConfusion hne
              | succ j =>
                exact hidx j (by simpa using h1) (by simpa using h2) (by simpa using hne)
      · simp only [if_neg hel] at h
        cases hrec : flagsFields rest c with
        | error e => simp only [hrec] at h; exact Except.noConfusion h
        | ok vs2 =>
          simp only [hrec] at h
          injection h with h
          subst h
          obtain ⟨hlen, hidx⟩ := ih c vs2 hrec
          refine ⟨by simp [hlen], ?_⟩
          intro i h1 h2 hne
          cases i with
          | zero => rfl
          | succ j =>
            exact hidx j (by simpa using h1) (by simpa using h2) (by simpa using hne)

/-- C10: the value extractor builds its fresh instance from the type
shape alone — the result is unchanged under any replacement of the
template's field values — and every field whose name lacks the Flag
eligibility marker (the leading embedded Command field included) is
left at its type's zero value, never copied from the template. -/
theorem c10_frame (obj : List (Field × FieldValue)) (c : Context) (res : List FieldValue)
    (h : Flags obj c = Except.ok res) :
    (∀ obj2 : List (Field × FieldValue),
      obj2.map Prod.fst = obj.map Prod.fst → Flags obj2 c = Except.ok res) ∧
    res.length = obj.length ∧
    ∀ (i : Nat) (h1 : i < obj.length) (h2 : i < res.length),
      goHasPre ((obj.get ⟨i, h1⟩).1).name "Flag" = false →
      res.get ⟨i, h2⟩ = zeroValue ((obj.get ⟨i, h1⟩).1).typeStr := by
  have hspec := flagsFields_spec (obj.map Prod.fst) c res h
  refine ⟨fun obj2 hmap => ?_, ?_, ?_⟩
  · simpa only [Flags, hmap] using h
  · simpa using hspec.1
  · intro i h1 h2 hne
    have h1m : i < (obj.map Prod.fst).length := by simpa using h1
    have := hspec.2 i h1m h2
    simp only [List.get_map] at this
    exact this hne

/-- A sample extraction template: a junk value in the non-eligible
embedded Command field, plus an int flag field. -/
def frameTemplate : List (Field × FieldValue) :=
  [(⟨"Command", "cli.Command", ""⟩, FieldValue.vString "junk"),
   (⟨"FlagN", "int", ""⟩, FieldValue.vInt 99)]

/-- Witness for C10: extracting `frameTemplate` against the all-zero
context leaves the Command slot of the fresh instance at its zero
value, junk template value notwithstanding. -/
theorem c10_frame_witness :
    ([FieldValue.vZero "cli.Command", FieldValue.vInt 0].get ⟨0, by decide⟩) =
      zeroValue ((frameTemplate.get ⟨0, by decide⟩).1).typeStr :=
  (c10_frame frameTemplate zeroCtx [FieldValue.vZero "cli.Command", FieldValue.vInt 0]
    (by rfl)).2.2 0 (by decide) (by decide) (by rfl)

/-- When the flag loop reaches an eligible field whose synthesis fails,
the loop stops with the inner error wrapped by the fixed message
`failed to generate flag from struct field` — for any starting command
and any earlier fields that process cleanly. -/
theorem addFlags_wrap_error (pre : List Field) :
    ∀ (cmd : Command) (f : Field) (post : List Field) (md : CommandMetadata) (e : String),
    (∀ g ∈ pre, ∃ mdg, parseMeta g.tag = Except.ok mdg ∧
      (goHasPre g.name "Flag" = true → ∃ fl, flagFromType g mdg = Except.ok fl)) →
    parseMeta f.tag = Except.ok md →
    goHasPre f.name "Flag" = true →
    flagFromType f md = Except.error e →
    addFlags cmd (pre ++ f :: post) =
      Except.error ("failed to generate flag from struct field: " ++ e) := by
  induction pre with
  | nil =>
    intro cmd f post md e _ hpm hel hft
    simp only [List.nil_append, addFlags, hpm, hel, if_true, hft]
  | cons g pre2 ih =>
    intro cmd f post md e hpre hpm hel hft
    obtain ⟨mdg, hg1, hg2⟩ := hpre g (List.mem_cons_self g pre2)
    have hpre2 : ∀ g2 ∈ pre2, ∃ mdg2, parseMeta g2.tag = Except.ok mdg2 ∧
        (goHasPre g2.name "Flag" = true → ∃ fl, flagFromType g2 mdg2 = Except.ok fl) :=
      fun g2 hg2m => hpre g2 (List.mem_cons_of_mem g hg2m)
    simp only [List.cons_append, addFlags, hg1]
    by_cases hgel : goHasPre g.name "Flag" = true
    · obtain ⟨fl, hfl⟩ := hg2 hgel
      simp only [hgel, if_true, hfl]
      exact ih _ f post md e hpre2 hpm hel hft
    · simp only [if_neg hgel]
      exact ih _ f post md e hpre2 hpm hel hft

/-- C9 counterexample: for the record Serve with the single eligible
field FlagX of unsupported type chan int, the command synthesizer's
error is the fixed generic wrap plus the inner type error — the field
name FlagX occurs nowhere in it, contradicting the claim that failures
propagate wrapped with the offending field's name. -/
theorem c9_counterexample :
    commandFromObject
      ⟨"Serve", "Command", "", true, ⟨"", "", [], none⟩, [⟨"FlagX", "chan int", ""⟩]⟩ =
      Except.error ("failed to generate flag from struct field: "
        ++ "unsupported flag generator type: chan int") ∧
    subOccurs "FlagX".toList
      ("failed to generate flag from struct field: "
        ++ "unsupported flag generator type: chan int").toList = false := by
  exact ⟨by rfl, by decide⟩

/-- C9 (amended): when flag synthesis fails for an eligible field, the
command synthesizer fails with the inner error wrapped by the fixed
message `failed to generate flag from struct field` — which names the
offending type or tag segment through the inner error, but not the
field's name. -/
theorem c9_wrap_message (o : Obj) (pre : List Field) (f : Field) (post : List Field)
    (md : CommandMetadata) (e : String) (cmd0 : Command)
    (hff : o.flagFields = pre ++ f :: post)
    (hn : o.typeName ≠ "")
    (hgc : getCommand o = Except.ok cmd0)
    (hpre : ∀ g ∈ pre, ∃ mdg, parseMeta g.tag = Except.ok mdg ∧
      (goHasPre g.name "Flag" = true → ∃ fl, flagFromType g mdg = Except.ok fl))
    (hpm : parseMeta f.tag = Except.ok md)
    (hel : goHasPre f.name "Flag" = true)
    (hft : flagFromType f md = Except.error e) :
    commandFromObject o =
      Except.error ("failed to generate flag from struct field: " ++ e) := by
  simp only [commandFromObject, if_neg hn, hgc, hff]
  exact addFlags_wrap_error pre _ f post md e hpre hpm hel hft

/-- Witness for C9 (amended) on a record whose first flag field
synthesizes cleanly and whose second has the unsupported type chan int. -/
theorem c9_wrap_message_witness :
    commandFromObject
      ⟨"Serve", "Command", "", true, ⟨"", "", [], none⟩,
       [⟨"FlagOk", "int", ""⟩, ⟨"FlagX", "chan int", ""⟩]⟩ =
      Except.error ("failed to generate flag from struct field: "
        ++ "unsupported flag generator type: chan int") :=
  c9_wrap_message
    ⟨"Serve", "Command", "", true, ⟨"", "", [], none⟩,
     [⟨"FlagOk", "int", ""⟩, ⟨"FlagX", "chan int", ""⟩]⟩
    [⟨"FlagOk", "int", ""⟩] ⟨"FlagX", "chan int", ""⟩ [] emptyMeta
    "unsupported flag generator type: chan int" ⟨"", "", [], none⟩
    (by rfl) (by decide) (by rfl)
    (by
      intro g hg
      simp only [List.mem_singleton] at hg
      subst hg
      exact ⟨emptyMeta, by rfl, fun _ => ⟨Flag.intF "ok" "OK" 0 false "", by rfl⟩⟩)
    (by rfl) (by rfl) (by rfl)

/-- A syntax error from the signed integer parser reports value 0 (a
range error reports the clamped extreme instead). -/
theorem goParseInt64Core_bad_val (neg : Bool) (cs : List Char)
    (h : (goParseInt64Core neg cs).2 = some ParseErr.bad) :
    (goParseInt64Core neg cs).1 = 0 := by
  unfold goParseInt64Core at h ⊢
  cases hd : digitsToNat cs with
  | none => simp [hd]
  | some n =>
    simp only [hd] at h ⊢
    split_ifs at h ⊢ <;> simp_all

/-- A syntax error from the signed integer parser reports value 0 (a
range error reports the clamped extreme instead). -/
theorem goParseInt64_bad_val (s : String)
    (h : (goParseInt64 s).2 = some ParseErr.bad) : (goParseInt64 s).1 = 0 := by
  revert h
  unfold goParseInt64
  split
  · split_ifs <;> exact fun h => goParseInt64Core_bad_val _ _ h
  · exact fun h => goParseInt64Core_bad_val _ _ h

/-- A syntax error from the unsigned integer parser reports value 0. -/
theorem goParseUint64_bad_val (s : String)
    (h : (goParseUint64 s).2 = some ParseErr.bad) : (goParseUint64 s).1 = 0 := by
  unfold goParseUint64 at h ⊢
  split at h
  · rfl
  · split at h <;> simp_all

/-- C7 counterexample: the int field FlagN with the out-of-range default
literal 9999999999999999999 synthesizes successfully, but its coerced
default is the saturated MaxInt64, not the type's zero value —
contradicting the claim that every malformed default silently yields
the zero value. -/
theorem c7_counterexample :
    flagFromType ⟨"FlagN", "int", ""⟩ ⟨"", "", false, "9999999999999999999"⟩ =
      Except.ok (Flag.intF "n" "N" 9223372036854775807 false "") ∧
    (9223372036854775807 : Int) ≠ 0 := ⟨by rfl, by decide⟩

/-- C7 (amended): for every type in the closed set, flag synthesis never
fails whatever the default literal; a syntactically invalid literal
yields the type's zero value (out-of-range integer literals saturate
to the clamped extreme instead of zero); and the hidden key is parsed
as a boolean whose rejection — including of an empty value — fails the
whole parse, while any literal the boolean parser accepts succeeds. -/
theorem c7_default_coercion :
    (∀ (f : Field) (md : CommandMetadata), f.typeStr ∈ supportedTypes →
      ∃ flag, flagFromType f md = Except.ok flag) ∧
    (∀ (f : Field) (md : CommandMetadata) (flag : Flag),
      flagFromType f md = Except.ok flag →
      ((f.typeStr = "int" ∨ f.typeStr = "int64") →
        (goParseInt64 (trimQuotes md.default)).2 = some ParseErr.bad →
        coercedDefault flag = FieldValue.vInt 0) ∧
      ((f.typeStr = "uint" ∨ f.typeStr = "uint64") →
        (goParseUint64 (trimQuotes md.default)).2 = some ParseErr.bad →
        coercedDefault flag = FieldValue.vUint 0) ∧
      ((f.typeStr = "float32" ∨ f.typeStr = "float64") →
        goParseFloatQ (trimQuotes md.default) = none →
        coercedDefault flag = FieldValue.vFloat 0) ∧
      (f.typeStr = "bool" → goParseBool (trimQuotes md.default) = none →
        coercedDefault flag = FieldValue.vBool false) ∧
      (f.typeStr = "time.Duration" → goParseDuration (trimQuotes md.default) = none →
        coercedDefault flag = FieldValue.vDuration 0)) ∧
    (∀ (md0 : CommandMetadata) (sec v : String), splitN2 ':' sec = ["hidden", v] →
      (goParseBool v = none →
        applySection md0 sec = Except.error "failed to parse hidden as a bool") ∧
      (∀ b, goParseBool v = some b →
        applySection md0 sec = Except.ok { md0 with hidden := b })) := by
  refine ⟨?_, ?_, ?_⟩
  · intro f md hmem
    simp only [supportedTypes, List.mem_cons, List.mem_singleton, List.not_mem_nil,
      or_false] at hmem
    rcases hmem with h|h|h|h|h|h|h|h|h|h|h|h
    all_goals simp only [flagFromType, h]
    all_goals try exact ⟨_, rfl⟩
    split <;> exact ⟨_, rfl⟩
  · intro f md flag hf
    refine ⟨?_, ?_, ?_, ?_, ?_⟩
    · intro hty hbad
      rcases hty with h|h
      all_goals simp only [flagFromType, h] at hf
      all_goals injection hf with hv
      all_goals subst hv
      all_goals simp [coercedDefault, goParseInt64_bad_val _ hbad]
    · intro hty hbad
      rcases hty with h|h
      all_goals simp only [flagFromType, h] at hf
      all_goals injection hf with hv
      all_goals subst hv
      all_goals simp [coercedDefault, goParseUint64_bad_val _ hbad]
    · intro hty hbad
      rcases hty with h|h
      all_goals simp only [flagFromType, h] at hf
      all_goals injection hf with hv
      all_goals subst hv
      all_goals simp [coercedDefault, hbad]
    · intro hty hbad
      simp only [flagFromType, hty, hbad] at hf
      injection hf with hv
      subst hv
      rfl
    · intro hty hbad
      simp only [flagFromType, hty, hbad] at hf
      injection hf with hv
      subst hv
      rfl
  · intro md0 sec v hsp
    constructor
    · intro hnone
      simp only [applySection, hsp, hnone]
    · intro b hsome
      simp only [applySection, hsp, hsome]

/-- Witness for C7 (amended) at the int field FlagN with the
syntactically invalid default literal oops, and at the hidden key with
an empty value. -/
theorem c7_default_coercion_witness :
    coercedDefault (Flag.intF "n" "N" 0 false "") = FieldValue.vInt 0 ∧
    applySection emptyMeta "hidden:" = Except.error "failed to parse hidden as a bool" :=
  ⟨(c7_default_coercion.2.1 ⟨"FlagN", "int", ""⟩ ⟨"", "", false, "oops"⟩
      (Flag.intF "n" "N" 0 false "") (by rfl)).1 (Or.inl rfl) (by rfl),
   (c7_default_coercion.2.2 emptyMeta "hidden:" "" (by rfl)).1 (by rfl)⟩

end Clive
